import Mathlib

/-!
Verification development for the cocoa_analysis pipeline (src/analysis.py).

The pipeline is embedded shallowly:

* a pandas cell is `Cell` (missing / numeric / text); pandas floats are
  modelled by `ℚ` (the inputs are decimal literals, so every parsed value is
  rational; IEEE-specific values such as infinities are outside the model),
* a `DataFrame` is `Table`: a list of column names plus rows of cells,
* operations that pandas can abort with `KeyError` return `Except String _`,
* `pd.to_numeric(·, errors := coerce)` is `toNumericCell`,
* `astype int` truncates toward zero (`truncQ`, numpy float→int cast),
* `pivot_table` with index Year, columns Element, values Value and
  aggfunc first is `pivotWide`: it drops rows whose group key
  (Year, Element) contains a missing value, aggregates each group with
  first-non-missing (pandas `GroupBy.first` skips NA), sorts group keys,
  drops result rows whose metric cells are all missing and then result
  columns that are entirely missing (`dropna = True`), and resets the index,
* `sort_values` is modelled by a stable insertion sort producing the
  ascending order; pandas' default quicksort guarantees the ascending order
  but not tie stability, which is why no theorem below relies on tie order,
* chart renderers return the data they would draw (`PlotOutcome`, `Fig`);
  purely cosmetic parameters (colors, marker sizes, titles) are not modelled.
-/

namespace Cocoa

/-- A pandas cell: missing (NaN), numeric, or text. -/
inductive Cell where
  | na : Cell
  | num : ℚ → Cell
  | str : String → Cell
deriving DecidableEq, Repr, Inhabited

/-- An in-memory data frame: column labels plus rows of cells.
Rows are positionally aligned with `cols`; reading past the end of a row
yields a missing value. -/
structure Table where
  cols : List String
  rows : List (List Cell)
deriving DecidableEq, Repr, Inhabited

/-- Raw text of a delimited input file, already split into header and cells
(the byte-level CSV lexing is not modelled). -/
structure Csv where
  header : List String
  cells : List (List String)
deriving DecidableEq, Repr, Inhabited

/-- Value of a digit string, `none` if a non-digit occurs ('' gives 0;
callers guard non-emptiness). -/
def digitsVal (cs : List Char) : Option Nat :=
  cs.foldl
    (fun acc c =>
      match acc with
      | some n => if c.isDigit then some (10 * n + (c.toNat - 48)) else none
      | none => none)
    (some 0)

/-- Parse an unsigned decimal numeral (digits with an optional decimal
point) as a rational. -/
def parseUnsigned (cs : List Char) : Option ℚ :=
  let ip := cs.takeWhile (· ≠ '.')
  let rest := cs.dropWhile (· ≠ '.')
  match rest with
  | [] =>
    if ip.isEmpty then none
    else
      match digitsVal ip with
      | some n => some (n : ℚ)
      | none => none
  | _ :: frac =>
    if frac.contains '.' then none
    else if ip.isEmpty && frac.isEmpty then none
    else
      match digitsVal ip, digitsVal frac with
      | some n, some m => some ((n : ℚ) + (m : ℚ) / ((10 : ℚ) ^ frac.length))
      | _, _ => none

/-- Parse a decimal numeral with an optional sign, the way float parsing
accepts the numerals that occur in this data set (scientific notation and
surrounding whitespace are not modelled). -/
def parseNum (s : String) : Option ℚ :=
  match s.data with
  | [] => none
  | '-' :: rest => (parseUnsigned rest).map (fun q => -q)
  | '+' :: rest => parseUnsigned rest
  | cs => parseUnsigned cs

/-- pd.to_numeric with errors coerce on one cell: numbers pass through,
text that parses becomes numeric, anything else becomes missing. -/
def toNumericCell : Cell → Cell
  | .na => .na
  | .num q => .num q
  | .str s =>
    match parseNum s with
    | some q => .num q
    | none => .na

/-- Truncation toward zero, the numpy float→int cast used by astype. -/
def truncQ (q : ℚ) : ℤ := if 0 ≤ q then ⌊q⌋ else ⌈q⌉

/-- astype int on one cell (applied after missing Years are dropped, so
only numeric cells are reached). -/
def truncCell : Cell → Cell
  | .num q => .num ((truncQ q : ℤ) : ℚ)
  | c => c

/-- Code-point comparison of character lists (python string order). -/
def charsLe : List Char → List Char → Bool
  | [], _ => true
  | _ :: _, [] => false
  | a :: as, b :: bs =>
    if a.toNat < b.toNat then true
    else if b.toNat < a.toNat then false
    else charsLe as bs

/-- Total comparison on cells used for pandas group-key sorting: numbers
before text, missing last. -/
def cellLe : Cell → Cell → Bool
  | .na, .na => true
  | .na, _ => false
  | _, .na => true
  | .num a, .num b => decide (a ≤ b)
  | .num _, .str _ => true
  | .str _, .num _ => false
  | .str a, .str b => charsLe a.data b.data

/-- Insert `a` after every element `b` of the (sorted) list with `le b a`,
so that earlier-inserted equals stay first. -/
def insertBy (le : α → α → Bool) (a : α) : List α → List α
  | [] => [a]
  | b :: bs => if le b a then b :: insertBy le a bs else a :: b :: bs

/-- Stable insertion sort: elements are inserted left to right, each after
the equals already placed. -/
def sortBy (le : α → α → Bool) (l : List α) : List α :=
  l.foldl (fun acc a => insertBy le a acc) []

/-- Default missing-value markers of pd.read_csv. -/
def naMarkers : List String :=
  ["", "#N/A", "#N/A N/A", "#NA", "-1.#IND", "-1.#QNAN", "-NaN", "-nan",
   "1.#IND", "1.#QNAN", "<NA>", "N/A", "NA", "NULL", "NaN", "None",
   "n/a", "nan", "null"]

/-- Whether read_csv treats this field as missing. -/
def isNAMarker (s : String) : Bool := naMarkers.contains s

/-- The strings of column `j` of the raw file (short rows read as empty
fields). -/
def colStrings (f : Csv) (j : Nat) : List String :=
  f.cells.map (fun r => r.getD j "")

/-- read_csv dtype inference for one column: numeric when every
non-missing field parses as a number. -/
def colIsNumeric (f : Csv) (j : Nat) : Bool :=
  (colStrings f j).all (fun s => isNAMarker s || (parseNum s).isSome)

/-- One field under read_csv: missing markers become NaN; in a numeric
column the text is converted, otherwise it stays text. -/
def readField (isNum : Bool) (s : String) : Cell :=
  if isNAMarker s then .na
  else if isNum then
    match parseNum s with
    | some q => .num q
    | none => .str s
  else .str s

/-- pd.read_csv: all header columns preserved, each column's fields read
with that column's inferred dtype. -/
def load_data (f : Csv) : Table :=
  { cols := f.header
    rows := f.cells.map (fun r =>
      (List.range f.header.length).map (fun j =>
        readField (colIsNumeric f j) (r.getD j ""))) }

/-- df[df[c] == v]: keep the rows whose cell in column `c` equals `v`;
KeyError when the column is absent. -/
def filterEq (t : Table) (c : String) (v : Cell) : Except String Table :=
  match t.cols.findIdx? (· == c) with
  | none => .error ("KeyError: " ++ c)
  | some j =>
    .ok { cols := t.cols
          rows := t.rows.filter (fun r => r.getD j .na == v) }

/-- df[[c1, ..., cn]]: project to the named columns in the given order;
KeyError when one is absent. -/
def projectCols (t : Table) (cs : List String) : Except String Table :=
  if cs.all (fun c => t.cols.contains c) then
    .ok { cols := cs
          rows := t.rows.map (fun r => cs.map (fun c =>
            match t.cols.findIdx? (· == c) with
            | some j => r.getD j .na
            | none => .na)) }
  else .error "KeyError"

/-- Wide table produced by pivot_table before column selection: column
labels are arbitrary cell values (the Element values), the first label
being the reset "Year" index. -/
structure WTable where
  wcols : List Cell
  rows : List (List Cell)
deriving DecidableEq, Repr, Inhabited

/-- The (Year, Element, Value) triple of one long-format row. -/
def rowTriple (jY jE jV : Nat) (r : List Cell) : Cell × Cell × Cell :=
  (r.getD jY .na, r.getD jE .na, r.getD jV .na)

/-- groupby key filter: rows with a missing Year or Element are dropped
before grouping. -/
def validKey : Cell × Cell × Cell → Bool :=
  fun p => !(p.1 == .na) && !(p.2.1 == .na)

/-- The Value cells of the rows in group (y, e), in input order. -/
def groupVals (ts : List (Cell × Cell × Cell)) (y e : Cell) : List Cell :=
  (ts.filter (fun p => p.1 == y && p.2.1 == e)).map (fun p => p.2.2)

/-- GroupBy.first with default skipna: the first non-missing value,
missing when there is none. -/
def firstNonNA (vs : List Cell) : Cell :=
  (vs.find? (fun v => !(v == .na))).getD .na

/-- The distinct Year keys of the groupby, in sorted key order. -/
def pYears (ts : List (Cell × Cell × Cell)) : List Cell :=
  sortBy cellLe (ts.map (fun p => p.1)).dedup

/-- The distinct Element keys of the groupby, in sorted key order. -/
def pElems (ts : List (Cell × Cell × Cell)) : List Cell :=
  sortBy cellLe (ts.map (fun p => p.2.1)).dedup

/-- The Year keys surviving the dropna on the aggregated frame: a year is
dropped when every one of its cells is missing (skipped when there are no
metric columns, matching the guard in pandas pivot_table). -/
def pKeptYears (ts : List (Cell × Cell × Cell)) : List Cell :=
  if (pElems ts).isEmpty then pYears ts
  else (pYears ts).filter (fun y =>
    (pElems ts).any (fun e => !(firstNonNA (groupVals ts y e) == .na)))

/-- The Element columns surviving the final dropna(axis 1): a column is
dropped when it is missing on every surviving year. -/
def pKeptElems (ts : List (Cell × Cell × Cell)) : List Cell :=
  (pElems ts).filter (fun e =>
    (pKeptYears ts).any (fun y => !(firstNonNA (groupVals ts y e) == .na)))

/-- The wide frame built from the valid (Year, Element, Value) triples:
one row per surviving year (the reset Year index leading), one column per
surviving Element, each cell the first non-missing value of its group. -/
def pivotCore (ts : List (Cell × Cell × Cell)) : WTable :=
  { wcols := .str "Year" :: pKeptElems ts
    rows := (pKeptYears ts).map (fun y =>
      y :: (pKeptElems ts).map (fun e => firstNonNA (groupVals ts y e))) }

/-- pivot_table(index Year, columns Element, values Value, aggfunc first)
followed by reset_index: group by the non-missing (Year, Element) keys,
aggregate with first-non-missing, sort keys, drop all-missing result rows
(dropna on the aggregated frame, skipped when there are no metric columns)
and then all-missing result columns (dropna axis 1), and turn the Year
index back into a leading column. -/
def pivotWide (t : Table) : Except String WTable :=
  match t.cols.findIdx? (· == "Year"), t.cols.findIdx? (· == "Element"),
        t.cols.findIdx? (· == "Value") with
  | some jY, some jE, some jV =>
    .ok (pivotCore ((t.rows.map (rowTriple jY jE jV)).filter validKey))
  | _, _, _ => .error "KeyError"

/-- The rename on lines 20-24 of the source maps each canonical column
name to itself, so it is the identity on the wide table. -/
def renameCanon (w : WTable) : WTable := w

/-- The canonical column subset of the final selection. -/
def canonCols : List String := ["Year", "Area harvested", "Yield", "Production"]

/-- The canonical names that actually label a wide column, in canonical
order (the `existing` list of the source). -/
def canonExisting (w : WTable) : List String :=
  canonCols.filter (fun c => w.wcols.contains (.str c))

/-- Read the wide cell labelled `c` from wide row `r`. -/
def wideLook (w : WTable) (r : List Cell) (c : String) : Cell :=
  match w.wcols.findIdx? (· == Cell.str c) with
  | some j => r.getD j .na
  | none => .na

/-- pivot_df[existing]: keep, in canonical order, the canonical names that
actually label a wide column. -/
def selectCanon (w : WTable) : Table :=
  { cols := canonExisting w
    rows := w.rows.map (fun r => (canonExisting w).map (wideLook w r)) }

/-- process_countries_data: filter to one Area, project to
(Year, Element, Value), pivot long-to-wide with first-wins aggregation,
rename (identity), and select the canonical columns. -/
def process_countries_data (df : Table) (country : String) : Except String Table :=
  match filterEq df "Area" (.str country) with
  | .error e => .error e
  | .ok cdf =>
    match projectCols cdf ["Year", "Element", "Value"] with
    | .error e => .error e
    | .ok p =>
      match pivotWide p with
      | .error e => .error e
      | .ok w => .ok (selectCanon (renameCanon w))

/-- Apply `f` to the cell in position `j` of every row (an in-place pandas
column assignment, on a value copy). -/
def mapColAt (t : Table) (j : Nat) (f : Cell → Cell) : Table :=
  { cols := t.cols
    rows := t.rows.map (fun r => r.set j (f (r.getD j .na))) }

/-- Column assignment guarded by presence, as in the metric-coercion loop. -/
def mapColName (t : Table) (c : String) (f : Cell → Cell) : Table :=
  match t.cols.findIdx? (· == c) with
  | some j => mapColAt t j f
  | none => t

/-- df.dropna(subset = [the column at j]): keep rows whose cell there is
not missing. -/
def dropnaAt (t : Table) (j : Nat) : Table :=
  { cols := t.cols
    rows := t.rows.filter (fun r => !(r.getD j .na == .na)) }

/-- df.sort_values on the column at `j` followed by reset_index(drop):
ascending by that column (stable in this model; see the header note). -/
def sortByAt (t : Table) (j : Nat) : Table :=
  { cols := t.cols
    rows := sortBy (fun r s => cellLe (r.getD j .na) (s.getD j .na)) t.rows }

/-- The metric columns coerced by the cleaner. -/
def metricNames : List String := ["Area harvested", "Yield", "Production"]

/-- clean_and_sort: coerce Year to numeric, drop rows with a missing Year,
cast Year to integer, coerce each present metric column to numeric, sort
ascending by Year and renumber. KeyError when Year is absent. -/
def clean_and_sort (df : Table) : Except String Table :=
  match df.cols.findIdx? (· == "Year") with
  | none => .error "KeyError: Year"
  | some jY =>
    let t1 := mapColAt df jY toNumericCell
    let t2 := dropnaAt t1 jY
    let t3 := mapColAt t2 jY truncCell
    let t4 := metricNames.foldl (fun t c => mapColName t c toNumericCell) t3
    .ok (sortByAt t4 jY)

/-- df[c] as a list of cells; KeyError when the column is absent. -/
def getCol (t : Table) (c : String) : Except String (List Cell) :=
  match t.cols.findIdx? (· == c) with
  | some j => .ok (t.rows.map (fun r => r.getD j .na))
  | none => .error ("KeyError: " ++ c)

/-- df.dropna(subset = [c]); KeyError when the column is absent (this is
what pandas raises when `subset` names a missing column). -/
def dropnaSubset (t : Table) (c : String) : Except String Table :=
  match t.cols.findIdx? (· == c) with
  | some j => .ok (dropnaAt t j)
  | none => .error ("KeyError: " ++ c)

/-- What a single-entity chart call produces: either a console skip notice
and no file, or one image file holding the plotted x/y series. -/
inductive PlotOutcome where
  | skipped : String → PlotOutcome
  | saved : String → List Cell → List Cell → PlotOutcome
deriving DecidableEq, Repr, Inhabited

/-- Number of image files a single-entity chart call writes. -/
def filesCreated : PlotOutcome → Nat
  | .skipped _ => 0
  | .saved _ _ _ => 1

/-- plot_scatter: skip (no file) when the Yield column is absent or empty
after dropping missing Yield values; otherwise save one scatter of Year
against Yield. -/
def plot_scatter (df : Table) (country outdir filename : String) :
    Except String PlotOutcome :=
  if df.cols.contains "Yield" then
    match dropnaSubset df "Yield" with
    | .error e => .error e
    | .ok dfp =>
      if dfp.rows.isEmpty then
        .ok (.skipped ("Warning: No valid Yield values for " ++ country ++
          ". Skipping scatter plot."))
      else
        match getCol dfp "Year", getCol dfp "Yield" with
        | .ok xs, .ok ys => .ok (.saved (outdir ++ "/" ++ filename) xs ys)
        | .error e, _ => .error e
        | _, .error e => .error e
  else
    .ok (.skipped ("Warning: Yield column not found for " ++ country ++
      ". Skipping scatter plot."))

/-- plot_bar: skip (no file) when the Area harvested column is absent or
empty after dropping missing values; otherwise save one bar chart of Year
against Area harvested. -/
def plot_bar (df : Table) (country outdir filename : String) :
    Except String PlotOutcome :=
  if df.cols.contains "Area harvested" then
    match dropnaSubset df "Area harvested" with
    | .error e => .error e
    | .ok dfp =>
      if dfp.rows.isEmpty then
        .ok (.skipped ("Warning: No valid Area harvested values for " ++ country ++
          ". Skipping bar chart."))
      else
        match getCol dfp "Year", getCol dfp "Area harvested" with
        | .ok xs, .ok ys => .ok (.saved (outdir ++ "/" ++ filename) xs ys)
        | .error e, _ => .error e
        | _, .error e => .error e
  else
    .ok (.skipped ("Warning: Area harvested column not found for " ++ country ++
      ". Skipping bar chart."))

/-- One panel of the combined figure: the x and y series it draws (empty
series draw an empty panel). -/
structure Panel where
  xs : List Cell
  ys : List Cell
deriving DecidableEq, Repr, Inhabited

/-- The combined 2x2 figure: its four panels in layout order, plus the
path it is saved to. -/
structure Fig where
  path : String
  panels : List Panel
deriving DecidableEq, Repr, Inhabited

/-- One panel of plot_combined: dropna on the metric column (KeyError when
it is absent — there is no guard here, unlike the single-entity charts),
then plot Year against the metric. -/
def combinedPanel (df : Table) (metric : String) : Except String Panel :=
  match dropnaSubset df metric with
  | .error e => .error e
  | .ok dfp =>
    match getCol dfp "Year", getCol dfp metric with
    | .ok xs, .ok ys => .ok { xs := xs, ys := ys }
    | .error e, _ => .error e
    | _, .error e => .error e

/-- plot_combined: render the four panels in source order (Ghana scatter,
second-entity scatter, Ghana bar, second-entity bar) and save one image.
No panel is ever skipped; a panel with no surviving rows is drawn empty. -/
def plot_combined (ghana_df coast_df : Table) (outdir filename : String) :
    Except String Fig :=
  match combinedPanel ghana_df "Yield" with
  | .error e => .error e
  | .ok p00 =>
    match combinedPanel coast_df "Yield" with
    | .error e => .error e
    | .ok p01 =>
      match combinedPanel ghana_df "Area harvested" with
      | .error e => .error e
      | .ok p10 =>
        match combinedPanel coast_df "Area harvested" with
        | .error e => .error e
        | .ok p11 =>
          .ok { path := outdir ++ "/" ++ filename
                panels := [p00, p01, p10, p11] }

/-! ### Heap-passing versions of the two transforms

Python data frames are heap objects, so "returns a new table and never
mutates its input in place" is a statement about the heap. The heap is a
list of tables addressed by position; pandas expressions that build a new
frame allocate, in-place column assignments write through the reference
they were given. `clean_and_sort` mutates only the private copy it makes
on entry (`df = df.copy()`). -/

/-- The table every dangling heap read returns (never reached by the
theorems, which constrain indices). -/
def emptyTable : Table := { cols := [], rows := [] }

/-- Allocate a fresh table on the heap, returning its address. -/
def halloc (h : List Table) (t : Table) : List Table × Nat :=
  (h ++ [t], h.length)

/-- Read the table at a heap address. -/
def hread (h : List Table) (i : Nat) : Table := h.getD i emptyTable

/-- Overwrite the table at a heap address (an in-place pandas update). -/
def hwrite (h : List Table) (i : Nat) (t : Table) : List Table := h.set i t

/-- process_countries_data on the heap: every step (filter, projection,
pivot plus reset_index, rename, column selection) builds a fresh frame;
the frames the claims observe are allocated, the argument is never
written. -/
def process_countries_data_st (h : List Table) (i : Nat) (country : String) :
    List Table × Except String Nat :=
  match filterEq (hread h i) "Area" (.str country) with
  | .error e => (h, .error e)
  | .ok cdf =>
    let a1 := halloc h cdf
    match projectCols (hread a1.1 a1.2) ["Year", "Element", "Value"] with
    | .error e => (a1.1, .error e)
    | .ok p =>
      let a2 := halloc a1.1 p
      match pivotWide (hread a2.1 a2.2) with
      | .error e => (a2.1, .error e)
      | .ok w =>
        let a3 := halloc a2.1 (selectCanon (renameCanon w))
        (a3.1, .ok a3.2)

/-- clean_and_sort on the heap: copy the argument first (df.copy()), do
the two in-place Year assignments and the metric-column assignments on
that copy (the dropna and the final sort each build a fresh frame), and
return the address of the sorted result. The argument's table is never
written. -/
def clean_and_sort_st (h : List Table) (i : Nat) :
    List Table × Except String Nat :=
  let a1 := halloc h (hread h i)
  match (hread a1.1 a1.2).cols.findIdx? (· == "Year") with
  | none => (a1.1, .error "KeyError: Year")
  | some jY =>
    let h2 := hwrite a1.1 a1.2 (mapColAt (hread a1.1 a1.2) jY toNumericCell)
    let a2 := halloc h2 (dropnaAt (hread h2 a1.2) jY)
    let h4 := hwrite a2.1 a2.2 (mapColAt (hread a2.1 a2.2) jY truncCell)
    let h5 := metricNames.foldl
      (fun hh c => hwrite hh a2.2 (mapColName (hread hh a2.2) c toNumericCell)) h4
    let a3 := halloc h5 (sortByAt (hread h5 a2.2) jY)
    (a3.1, .ok a3.2)

/-! ### Spec-side definitions and concrete instances -/

/-- Written from the spec claim, for refutation: the loader retains every
value exactly as read, as text, with no coercion. -/
def loadRetainsValuesVerbatim (f : Csv) : Prop :=
  (load_data f).rows = f.cells.map (fun r => r.map Cell.str)

/-- The raw Values of the rows matching (Area = country, Year = y,
Element = e), in input order — the collision group of one wide cell. -/
def matchingValues (df : Table) (country : String) (y : Cell) (e : String) :
    List Cell :=
  match df.cols.findIdx? (· == "Area"), df.cols.findIdx? (· == "Year"),
        df.cols.findIdx? (· == "Element"), df.cols.findIdx? (· == "Value") with
  | some jA, some jY, some jE, some jV =>
    (df.rows.filter (fun r =>
      r.getD jA .na == .str country && r.getD jY .na == y &&
      r.getD jE .na == .str e)).map (fun r => r.getD jV .na)
  | _, _, _, _ => []

/-- Row image of the cleaner on one surviving row: Year is parsed and
truncated to an integer, each metric column present in `cols` is parsed
(unparsable cells become missing), all other cells are untouched. -/
def cleanRowF (cols : List String) (jY : Nat) (r : List Cell) : List Cell :=
  let r1 := r.set jY (truncCell (toNumericCell (r.getD jY .na)))
  metricNames.foldl
    (fun s c =>
      match cols.findIdx? (· == c) with
      | some j => s.set j (toNumericCell (s.getD j .na))
      | none => s) r1

/-- The cleaner's row-survival test: the Year cell parses as a number. -/
def yearParses (jY : Nat) (r : List Cell) : Bool :=
  !(toNumericCell (r.getD jY .na) == .na)

/-- Whether column `c` is present but entirely missing (true also for a
column with no rows). -/
def allNACol (t : Table) (c : String) : Bool :=
  match t.cols.findIdx? (· == c) with
  | some j => t.rows.all (fun r => r.getD j .na == .na)
  | none => true

/-- The C8 scenario input: two long-format Ghana rows for 1961. -/
def ghanaRawC8 : Table :=
  { cols := ["Area", "Year", "Element", "Value"]
    rows := [[.str "Ghana", .str "1961", .str "Yield", .str "300"],
             [.str "Ghana", .str "1961", .str "Area harvested", .str "100"]] }

/-- The Entity Time Series the C8 input reshapes to. -/
def entityC8 : Table :=
  { cols := ["Year", "Area harvested", "Yield"]
    rows := [[.str "1961", .str "100", .str "300"]] }

/-- The Cleaned Time Series the C8 input cleans to. -/
def cleanedC8 : Table :=
  { cols := ["Year", "Area harvested", "Yield"]
    rows := [[.num 1961, .num 100, .num 300]] }

/-- A raw table with the mandatory columns and no rows (an unknown entity
name filters any table to this shape). -/
def emptyRaw : Table :=
  { cols := ["Area", "Year", "Element", "Value"], rows := [] }

/-- The column-incomplete empty Cleaned Time Series a zero-match entity
produces: only the Year column survives the zero-row reshape. -/
def yearOnlyEmpty : Table := { cols := ["Year"], rows := [] }

/-- The C4 collision input: two Ghana rows with the same
(Area, Year, Element) key, the first Value missing, the second 300. -/
def ghanaRawC4 : Table :=
  { cols := ["Area", "Year", "Element", "Value"]
    rows := [[.str "Ghana", .str "1961", .str "Yield", .na],
             [.str "Ghana", .str "1961", .str "Yield", .num 300]] }

/-- Heap extension: every pre-existing address still holds the table it
held before, and the heap only grew. This is the frame property the
lifecycle claim asserts. -/
def heapGrows (h h' : List Table) : Prop :=
  h.length ≤ h'.length ∧
  ∀ j, j < h.length → h'.getD j emptyTable = h.getD j emptyTable

/-- A cleaner input with one unparsable Year (row dropped) and one
unparsable Yield (cell cleared, row kept). -/
def cleanerWitnessIn : Table :=
  { cols := ["Year", "Yield"]
    rows := [[.str "N/A", .num 5], [.str "1961", .str "bad"]] }

/-- The Cleaned Time Series `cleanerWitnessIn` cleans to. -/
def cleanerWitnessOut : Table :=
  { cols := ["Year", "Yield"], rows := [[.num 1961, .na]] }

/-- The valid (Year, Element, Value) triples of the rows of `df` whose
Area is `c`, read at the given column positions: the groups the pivot
aggregates, stated directly on the raw table. -/
def dfTriples (df : Table) (jA : Nat) (c : String) (jY jE jV : Nat) :
    List (Cell × Cell × Cell) :=
  ((df.rows.filter (fun r => r.getD jA .na == .str c)).map
    (fun r => (r.getD jY .na, r.getD jE .na, r.getD jV .na))).filter validKey

/-! ### Helper lemmas -/

theorem getD_set_self {l : List α} {j : Nat} {v d : α} (h : j < l.length) :
    (l.set j v).getD j d = v := by
  simp [List.getD_eq_getElem?_getD, List.getElem?_set_self h]

theorem getD_set_ne {l : List α} {i j : Nat} {v d : α} (h : i ≠ j) :
    (l.set i v).getD j d = l.getD j d := by
  simp [List.getD_eq_getElem?_getD, List.getElem?_set_ne h]

theorem getD_mem {l : List α} {j : Nat} (d : α) (h : j < l.length) :
    l.getD j d ∈ l := by
  rw [List.getD_eq_getElem?_getD, List.getElem?_eq_getElem h]
  exact List.getElem_mem h

theorem mem_findIdx?_beq {α : Type} [BEq α] [LawfulBEq α] {c : α} {l : List α}
    (h : c ∈ l) : ∃ j, l.findIdx? (· == c) = some j := by
  have ha : l.any (· == c) = true := List.any_eq_true.mpr ⟨c, h, by simp⟩
  have h2 := @List.findIdx?_isSome _ l (· == c)
  rw [ha] at h2
  exact Option.isSome_iff_exists.mp h2

theorem findIdx?_beq_spec {α : Type} [BEq α] [LawfulBEq α] {c : α} {l : List α}
    {j : Nat} (h : l.findIdx? (· == c) = some j) (d : α) :
    j < l.length ∧ l.getD j d = c := by
  rw [List.findIdx?_eq_some_iff_getElem] at h
  obtain ⟨hlt, hp, -⟩ := h
  exact ⟨hlt, by simp [List.getD_eq_getElem?_getD, List.getElem?_eq_getElem hlt,
    eq_of_beq hp]⟩

theorem findIdx?_beq_mem {α : Type} [BEq α] [LawfulBEq α] {c : α} {l : List α}
    {j : Nat} (h : l.findIdx? (· == c) = some j) : c ∈ l := by
  obtain ⟨hlt, hd⟩ := findIdx?_beq_spec h c
  have := @getD_mem _ l _ c hlt
  rwa [hd] at this

theorem insertBy_perm (le : α → α → Bool) (a : α) (l : List α) :
    (insertBy le a l).Perm (a :: l) := by
  induction l with
  | nil => simp [insertBy]
  | cons b bs ih =>
    rw [insertBy]
    by_cases hb : le b a = true
    · simpa [hb] using (ih.cons b).trans (List.Perm.swap a b bs)
    · simp [hb]

theorem foldl_insertBy_perm (le : α → α → Bool) :
    ∀ (l acc : List α),
      (l.foldl (fun a x => insertBy le x a) acc).Perm (acc ++ l) := by
  intro l
  induction l with
  | nil => intro acc; simp
  | cons x xs ih =>
    intro acc
    have h1 := ih (insertBy le x acc)
    have h2 : (insertBy le x acc ++ xs).Perm ((x :: acc) ++ xs) :=
      (insertBy_perm le x acc).append_right xs
    have h3 : ((x :: acc) ++ xs).Perm (acc ++ x :: xs) := by
      simpa using (@List.perm_middle _ x acc xs).symm
    exact (h1.trans h2).trans h3

theorem sortBy_perm (le : α → α → Bool) (l : List α) : (sortBy le l).Perm l := by
  simpa using foldl_insertBy_perm le l []

/-! ### Structure lemmas for the filter/reshape/clean pipeline -/

theorem filterEq_ok {t : Table} {c : String} {v : Cell} {j : Nat}
    (hj : t.cols.findIdx? (· == c) = some j) :
    filterEq t c v =
      .ok { cols := t.cols, rows := t.rows.filter (fun r => r.getD j .na == v) } := by
  rw [filterEq, hj]

theorem projectCols_ok (t : Table) (cs : List String)
    (h : cs.all (fun c => t.cols.contains c) = true) :
    projectCols t cs =
      .ok { cols := cs
            rows := t.rows.map (fun r => cs.map (fun c =>
              match t.cols.findIdx? (· == c) with
              | some j => r.getD j .na
              | none => .na)) } := by
  rw [projectCols, if_pos h]

theorem pivotWide_lit (rows : List (List Cell)) :
    pivotWide { cols := ["Year", "Element", "Value"], rows := rows } =
      .ok (pivotCore ((rows.map (rowTriple 0 1 2)).filter validKey)) := rfl

/-- The whole filter/reshape transform in closed form, under the column
positions of the four mandatory raw columns. -/
theorem process_eq {df : Table} {c : String} {jA jY jE jV : Nat}
    (hjA : df.cols.findIdx? (· == "Area") = some jA)
    (hjY : df.cols.findIdx? (· == "Year") = some jY)
    (hjE : df.cols.findIdx? (· == "Element") = some jE)
    (hjV : df.cols.findIdx? (· == "Value") = some jV) :
    process_countries_data df c =
      .ok (selectCanon (pivotCore (dfTriples df jA c jY jE jV))) := by
  have hall : ((["Year", "Element", "Value"] : List String).all
      (fun x => df.cols.contains x)) = true := by
    simp [List.all_cons, List.elem_iff, findIdx?_beq_mem hjY,
      findIdx?_beq_mem hjE, findIdx?_beq_mem hjV]
  have hts : (((df.rows.filter (fun r => r.getD jA .na == Cell.str c)).map
        (fun r => (["Year", "Element", "Value"] : List String).map (fun cc =>
          match df.cols.findIdx? (· == cc) with
          | some j => r.getD j .na
          | none => .na))).map (rowTriple 0 1 2)).filter validKey =
      dfTriples df jA c jY jE jV := by
    rw [List.map_map, dfTriples]
    congr 1
    refine List.map_eq_map_iff.mpr (fun r _ => ?_)
    simp [rowTriple, hjY, hjE, hjV]
  simp only [process_countries_data, filterEq_ok hjA, projectCols_ok, hall,
    pivotWide_lit, renameCanon, hts]

theorem clean_ok {t : Table} (h : "Year" ∈ t.cols) :
    ∃ t', clean_and_sort t = .ok t' := by
  obtain ⟨j, hj⟩ := mem_findIdx?_beq h
  exact ⟨_, by rw [clean_and_sort, hj]⟩

theorem canonExisting_pivotCore (ts : List (Cell × Cell × Cell)) :
    canonExisting (pivotCore ts) =
      "Year" :: (["Area harvested", "Yield", "Production"].filter
        (fun c => (pKeptElems ts).contains (.str c))) := by
  simp [canonExisting, canonCols, pivotCore, List.filter_cons]

/-- Position 0 of every reshaped row holds that row's Year key. -/
theorem selectCanon_pivotCore_year (ts : List (Cell × Cell × Cell)) :
    (selectCanon (pivotCore ts)).rows.map (fun r => r.getD 0 .na) =
      pKeptYears ts := by
  show ((pivotCore ts).rows.map
      (fun r => (canonExisting (pivotCore ts)).map (wideLook (pivotCore ts) r))).map
      (fun r => r.getD 0 .na) = pKeptYears ts
  rw [List.map_map]
  have hrows : (pivotCore ts).rows = (pKeptYears ts).map (fun y =>
      y :: (pKeptElems ts).map (fun e => firstNonNA (groupVals ts y e))) := rfl
  rw [hrows, List.map_map]
  refine (List.map_eq_map_iff.mpr (fun y _ => ?_)).trans (List.map_id _)
  show ((canonExisting (pivotCore ts)).map
    (wideLook (pivotCore ts)
      (y :: (pKeptElems ts).map (fun e => firstNonNA (groupVals ts y e))))).getD 0 .na = y
  rw [canonExisting_pivotCore]
  simp [wideLook, pivotCore, List.findIdx?_cons]

theorem pKeptYears_nodup (ts : List (Cell × Cell × Cell)) :
    (pKeptYears ts).Nodup := by
  have h1 : (pYears ts).Nodup :=
    ((sortBy_perm cellLe _).symm).nodup (List.nodup_dedup _)
  rw [pKeptYears]
  by_cases he : (pElems ts).isEmpty
  · rw [if_pos he]; exact h1
  · rw [if_neg he]; exact h1.filter _

theorem filterEq_ok_inv {t : Table} {c : String} {v : Cell} {u : Table}
    (h : filterEq t c v = .ok u) :
    ∃ j, t.cols.findIdx? (· == c) = some j := by
  rw [filterEq] at h
  rcases hj : t.cols.findIdx? (· == c) with _ | j
  · rw [hj] at h; exact Except.noConfusion h
  · exact ⟨j, rfl⟩

theorem projectCols_ok_inv {t : Table} {cs : List String} {u : Table}
    (h : projectCols t cs = .ok u) :
    cs.all (fun c => t.cols.contains c) = true := by
  rw [projectCols] at h
  by_cases hc : cs.all (fun c => t.cols.contains c) = true
  · exact hc
  · rw [if_neg hc] at h; exact Except.noConfusion h

/-- Inversion: a successful reshape pins down the four raw column
positions and the closed form of the result. -/
theorem process_ok_inv {df : Table} {c : String} {w : Table}
    (h : process_countries_data df c = .ok w) :
    ∃ jA jY jE jV, df.cols.findIdx? (· == "Area") = some jA ∧
      df.cols.findIdx? (· == "Year") = some jY ∧
      df.cols.findIdx? (· == "Element") = some jE ∧
      df.cols.findIdx? (· == "Value") = some jV ∧
      w = selectCanon (pivotCore (dfTriples df jA c jY jE jV)) := by
  rcases hfe : filterEq df "Area" (.str c) with e | cdf
  · simp [process_countries_data, hfe] at h
  obtain ⟨jA, hjA⟩ := filterEq_ok_inv hfe
  have hcols : cdf.cols = df.cols := by
    rw [filterEq_ok hjA] at hfe
    injection hfe with h2
    rw [← h2]
  rcases hpr : projectCols cdf ["Year", "Element", "Value"] with e | p
  · simp [process_countries_data, hfe, hpr] at h
  have hall := projectCols_ok_inv hpr
  rw [hcols] at hall
  simp only [List.all_cons, List.all_nil, Bool.and_eq_true, and_true] at hall
  obtain ⟨hY, hE, hV⟩ := hall
  obtain ⟨jY, hjY⟩ := mem_findIdx?_beq (List.elem_iff.mp hY)
  obtain ⟨jE, hjE⟩ := mem_findIdx?_beq (List.elem_iff.mp hE)
  obtain ⟨jV, hjV⟩ := mem_findIdx?_beq (List.elem_iff.mp hV)
  have heq := @process_eq df c _ _ _ _ hjA hjY hjE hjV
  rw [h] at heq
  injection heq with heq2
  exact ⟨jA, jY, jE, jV, hjA, hjY, hjE, hjV, heq2⟩

/-! ### Claim theorems -/

/-- C2: the cleaner never raises on an Entity Time Series — any table
carrying a Year column, which every reshape output does, including the
column-incomplete empty table a zero-match entity name produces. -/
theorem claim_C2 :
    (∀ t : Table, "Year" ∈ t.cols → ∃ t', clean_and_sort t = .ok t') ∧
    (∀ (df : Table) (c : String), "Area" ∈ df.cols → "Year" ∈ df.cols →
      "Element" ∈ df.cols → "Value" ∈ df.cols →
      ∃ w, process_countries_data df c = .ok w ∧ "Year" ∈ w.cols ∧
        ∃ t', clean_and_sort w = .ok t') := by
  refine ⟨fun t h => clean_ok h, fun df c hA hY hE hV => ?_⟩
  obtain ⟨jA, hjA⟩ := mem_findIdx?_beq hA
  obtain ⟨jY, hjY⟩ := mem_findIdx?_beq hY
  obtain ⟨jE, hjE⟩ := mem_findIdx?_beq hE
  obtain ⟨jV, hjV⟩ := mem_findIdx?_beq hV
  have hYw : "Year" ∈ (selectCanon (pivotCore (dfTriples df jA c jY jE jV))).cols := by
    show "Year" ∈ canonExisting (pivotCore (dfTriples df jA c jY jE jV))
    rw [canonExisting_pivotCore]
    exact List.mem_cons_self _ _
  exact ⟨_, process_eq hjA hjY hjE hjV, hYw, clean_ok hYw⟩

/-- C2 witness: the cleaner succeeds on the Year-only empty table of a
zero-match entity, and the reshape-then-clean chain succeeds on an empty
raw table for an unknown entity name. -/
theorem claim_C2_witness :
    (∃ t', clean_and_sort yearOnlyEmpty = .ok t') ∧
    (∃ w, process_countries_data emptyRaw "Nowhere" = .ok w ∧ "Year" ∈ w.cols ∧
      ∃ t', clean_and_sort w = .ok t') :=
  ⟨claim_C2.1 yearOnlyEmpty (by decide),
   claim_C2.2 emptyRaw "Nowhere" (by decide) (by decide) (by decide) (by decide)⟩

/-- C10: the Year cells of a reshaped table are pairwise distinct — the
pivot makes Year a unique key of the wide table (Year is its leading
column). -/
theorem claim_C10 (df : Table) (c : String) (w : Table)
    (h : process_countries_data df c = .ok w) :
    w.cols.head? = some "Year" ∧
    (w.rows.map (fun r => r.getD 0 .na)).Nodup := by
  obtain ⟨jA, jY, jE, jV, hjA, hjY, hjE, hjV, hw⟩ := process_ok_inv h
  subst hw
  constructor
  · show (canonExisting (pivotCore (dfTriples df jA c jY jE jV))).head? = some "Year"
    rw [canonExisting_pivotCore]
    rfl
  · rw [selectCanon_pivotCore_year]
    exact pKeptYears_nodup _

/-- C10 witness: the C8 scenario's reshape output has Year leading and
duplicate-free. -/
theorem claim_C10_witness :
    entityC8.cols.head? = some "Year" ∧
    (entityC8.rows.map (fun r => r.getD 0 .na)).Nodup :=
  claim_C10 ghanaRawC8 "Ghana" entityC8 rfl

theorem getCol_ok {t : Table} {c : String} {j : Nat}
    (hj : t.cols.findIdx? (· == c) = some j) :
    getCol t c = .ok (t.rows.map (fun r => r.getD j .na)) := by
  rw [getCol, hj]

/-- One combined-chart panel in closed form when the metric and Year
columns are present. -/
theorem combinedPanel_eq {df : Table} {m : String} {j jy : Nat}
    (hj : df.cols.findIdx? (· == m) = some j)
    (hjy : df.cols.findIdx? (· == "Year") = some jy) :
    combinedPanel df m = .ok
      { xs := (dropnaAt df j).rows.map (fun r => r.getD jy .na)
        ys := (dropnaAt df j).rows.map (fun r => r.getD j .na) } := by
  simp only [combinedPanel, dropnaSubset, hj,
    @getCol_ok (dropnaAt df j) _ _ hjy, @getCol_ok (dropnaAt df j) _ _ hj]

/-- C1 counterexample: the Year-only empty table is a reachable Cleaned
Time Series (an entity matching zero raw rows), and plot_combined raises
KeyError on it instead of completing — so the claim fails for pairs whose
tables lack a metric column. -/
theorem claim_C1_cex :
    process_countries_data emptyRaw "Ghana" = .ok yearOnlyEmpty ∧
    clean_and_sort yearOnlyEmpty = .ok yearOnlyEmpty ∧
    plot_combined yearOnlyEmpty yearOnlyEmpty "output" "combined_plots.pdf" =
      .error "KeyError: Yield" :=
  ⟨rfl, rfl, rfl⟩

/-- C1 (amended): for every pair of Cleaned Time Series that both carry
the Yield and Area harvested columns, plot_combined completes without
error and produces the single four-panel figure, never skipping a panel
(a panel with no surviving rows draws empty); when either metric column
is absent from either table it raises KeyError instead. -/
theorem claim_C1 (g c : Table) (o f : String)
    (hgY : "Year" ∈ g.cols) (hgS : "Yield" ∈ g.cols)
    (hgA : "Area harvested" ∈ g.cols) (hcY : "Year" ∈ c.cols)
    (hcS : "Yield" ∈ c.cols) (hcA : "Area harvested" ∈ c.cols) :
    ∃ fig, plot_combined g c o f = .ok fig ∧ fig.panels.length = 4 := by
  obtain ⟨j1, h1⟩ := mem_findIdx?_beq hgY
  obtain ⟨j2, h2⟩ := mem_findIdx?_beq hgS
  obtain ⟨j3, h3⟩ := mem_findIdx?_beq hgA
  obtain ⟨j4, h4⟩ := mem_findIdx?_beq hcY
  obtain ⟨j5, h5⟩ := mem_findIdx?_beq hcS
  obtain ⟨j6, h6⟩ := mem_findIdx?_beq hcA
  refine ⟨{ path := o ++ "/" ++ f
            panels := [
              { xs := (dropnaAt g j2).rows.map (fun r => r.getD j1 .na)
                ys := (dropnaAt g j2).rows.map (fun r => r.getD j2 .na) },
              { xs := (dropnaAt c j5).rows.map (fun r => r.getD j4 .na)
                ys := (dropnaAt c j5).rows.map (fun r => r.getD j5 .na) },
              { xs := (dropnaAt g j3).rows.map (fun r => r.getD j1 .na)
                ys := (dropnaAt g j3).rows.map (fun r => r.getD j3 .na) },
              { xs := (dropnaAt c j6).rows.map (fun r => r.getD j4 .na)
                ys := (dropnaAt c j6).rows.map (fun r => r.getD j6 .na) } ] },
    ?_, rfl⟩
  simp only [plot_combined, combinedPanel_eq h2 h1, combinedPanel_eq h5 h4,
    combinedPanel_eq h3 h1, combinedPanel_eq h6 h4]

theorem clean_eq {t : Table} {jY : Nat}
    (hj : t.cols.findIdx? (· == "Year") = some jY) :
    clean_and_sort t = .ok (sortByAt (metricNames.foldl
      (fun a c => mapColName a c toNumericCell)
      (mapColAt (dropnaAt (mapColAt t jY toNumericCell) jY) jY truncCell)) jY) := by
  rw [clean_and_sort, hj]

theorem foldl_mapColName_cols (names : List String) (t : Table) (f : Cell → Cell) :
    (names.foldl (fun a c => mapColName a c f) t).cols = t.cols := by
  induction names generalizing t with
  | nil => rfl
  | cons c names ih =>
    rw [List.foldl_cons, ih]
    cases hjc : t.cols.findIdx? (· == c) with
    | none => rw [mapColName, hjc]
    | some j => rw [mapColName, hjc]; rfl

/-- The metric-coercion loop acts row by row: a column-wise fold equals a
map of the corresponding cell-wise fold. -/
theorem foldl_mapColName_rows (names : List String) (t : Table) (f : Cell → Cell) :
    (names.foldl (fun a c => mapColName a c f) t).rows =
      t.rows.map (fun r => names.foldl (fun s c =>
        match t.cols.findIdx? (· == c) with
        | some j => s.set j (f (s.getD j .na))
        | none => s) r) := by
  induction names generalizing t with
  | nil => simp
  | cons c names ih =>
    rw [List.foldl_cons, ih]
    cases hjc : t.cols.findIdx? (· == c) with
    | none =>
      rw [mapColName, hjc]
      simp only [List.foldl_cons, hjc]
    | some j =>
      rw [mapColName, hjc]
      simp only [mapColAt, List.map_map, List.foldl_cons, hjc]
      rfl

theorem yearParses_lt {jY : Nat} {r : List Cell} (hp : yearParses jY r = true) :
    jY < r.length := by
  by_contra hl
  rw [yearParses, List.getD_eq_default _ _ (le_of_not_lt hl)] at hp
  simp [toNumericCell] at hp

/-- The Year coercion followed by the Year dropna keeps exactly the rows
whose Year parses, each with its Year cell replaced by the parse. -/
theorem year_stage_rows (t : Table) (jY : Nat) :
    (dropnaAt (mapColAt t jY toNumericCell) jY).rows =
      (t.rows.filter (yearParses jY)).map
        (fun r => r.set jY (toNumericCell (r.getD jY .na))) := by
  show (t.rows.map (fun r => r.set jY (toNumericCell (r.getD jY .na)))).filter
      (fun r => !(r.getD jY .na == .na)) = _
  rw [List.filter_map]
  congr 1
  refine List.filter_congr (fun r _ => ?_)
  simp only [Function.comp_apply]
  by_cases hlen : jY < r.length
  · rw [yearParses, getD_set_self hlen]
  · rw [List.set_eq_of_length_le (le_of_not_lt hlen), yearParses,
      List.getD_eq_default _ _ (le_of_not_lt hlen)]
    rfl

/-- The cleaner before its final sort: exactly the rows with a parsable
Year survive, each transformed cell-wise by `cleanRowF`. -/
theorem clean_pre_sort_rows (t : Table) (jY : Nat) :
    (metricNames.foldl (fun a c => mapColName a c toNumericCell)
      (mapColAt (dropnaAt (mapColAt t jY toNumericCell) jY) jY truncCell)).rows =
    (t.rows.filter (yearParses jY)).map (cleanRowF t.cols jY) := by
  rw [foldl_mapColName_rows]
  have hC : (mapColAt (dropnaAt (mapColAt t jY toNumericCell) jY) jY truncCell).rows =
      (dropnaAt (mapColAt t jY toNumericCell) jY).rows.map
        (fun r => r.set jY (truncCell (r.getD jY .na))) := rfl
  rw [hC, year_stage_rows, List.map_map, List.map_map]
  refine List.map_congr_left (fun r hr => ?_)
  have hp : yearParses jY r = true := (List.mem_filter.mp hr).2
  have hlen : jY < r.length := yearParses_lt hp
  simp only [Function.comp_apply]
  rw [getD_set_self (by simpa using hlen), List.set_set, cleanRowF]
  rfl

theorem toNumericCell_num_or_na (c : Cell) :
    toNumericCell c = .na ∨ ∃ q, toNumericCell c = .num q := by
  cases c with
  | na => exact Or.inl rfl
  | num q => exact Or.inr ⟨q, rfl⟩
  | str s =>
    rw [toNumericCell]
    cases hp : parseNum s with
    | none => exact Or.inl rfl
    | some q => exact Or.inr ⟨q, rfl⟩

/-- The metric-coercion fold never touches the Year position. -/
theorem foldl_metric_getD_ne (cols : List String) (f : Cell → Cell) {jY : Nat}
    (hcol : cols.getD jY "" = "Year") :
    ∀ (names : List String), (∀ c ∈ names, c ≠ "Year") → ∀ s : List Cell,
      (names.foldl (fun s c =>
        match cols.findIdx? (· == c) with
        | some j => s.set j (f (s.getD j .na))
        | none => s) s).getD jY .na = s.getD jY .na := by
  intro names
  induction names with
  | nil => intro _ s; rfl
  | cons c cs ih =>
    intro hne s
    rw [List.foldl_cons, ih (fun x hx => hne x (List.mem_cons_of_mem _ hx))]
    cases hjc : cols.findIdx? (· == c) with
    | none => rfl
    | some j =>
      have hj := (findIdx?_beq_spec hjc "").2
      have hne' : j ≠ jY := by
        intro he
        exact hne c (List.mem_cons_self _ _) (by rw [← hj, he, hcol])
      exact getD_set_ne hne'

theorem cleanRowF_year_int {cols : List String} {jY : Nat} {r : List Cell}
    (hY : cols.findIdx? (· == "Year") = some jY)
    (hp : yearParses jY r = true) :
    ∃ k : ℤ, (cleanRowF cols jY r).getD jY .na = .num (k : ℚ) := by
  have hcol : cols.getD jY "" = "Year" := (findIdx?_beq_spec hY "").2
  have hlen : jY < r.length := yearParses_lt hp
  simp only [cleanRowF]
  rw [foldl_metric_getD_ne cols toNumericCell hcol metricNames (by decide) _]
  rw [getD_set_self hlen]
  rcases toNumericCell_num_or_na (r.getD jY .na) with hna | ⟨q, hq⟩
  · rw [yearParses, hna] at hp; simp at hp
  · rw [hq]; exact ⟨truncQ q, rfl⟩

/-- C5: up to the final sort (a permutation), the cleaner's output is the
input rows with a parsable Year — exactly those — transformed by
`cleanRowF`, which truncates Year to an integer and clears only the
unparsable metric cells while keeping their rows; every surviving Year is
an integer. -/
theorem claim_C5 (t t' : Table) (jY : Nat)
    (hj : t.cols.findIdx? (· == "Year") = some jY)
    (h : clean_and_sort t = .ok t') :
    t'.rows.Perm ((t.rows.filter (yearParses jY)).map (cleanRowF t.cols jY)) ∧
    t'.rows.length = (t.rows.filter (yearParses jY)).length ∧
    ∀ r' ∈ t'.rows, ∃ k : ℤ, r'.getD jY .na = .num (k : ℚ) := by
  rw [clean_eq hj] at h
  injection h with h2
  subst h2
  have hrows := clean_pre_sort_rows t jY
  have hperm : (sortByAt (metricNames.foldl (fun a c => mapColName a c toNumericCell)
      (mapColAt (dropnaAt (mapColAt t jY toNumericCell) jY) jY truncCell)) jY).rows.Perm
      ((t.rows.filter (yearParses jY)).map (cleanRowF t.cols jY)) := by
    show (sortBy (fun r s => cellLe (r.getD jY .na) (s.getD jY .na))
      (metricNames.foldl (fun a c => mapColName a c toNumericCell)
        (mapColAt (dropnaAt (mapColAt t jY toNumericCell) jY) jY truncCell)).rows).Perm _
    rw [hrows]
    exact sortBy_perm _ _
  refine ⟨hperm, ?_, ?_⟩
  · rw [hperm.length_eq, List.length_map]
  · intro r' hr'
    obtain ⟨r, hrmem, hre⟩ := List.mem_map.mp (hperm.mem_iff.mp hr')
    rw [← hre]
    exact cleanRowF_year_int hj (List.mem_filter.mp hrmem).2

theorem getD_append_left {l l2 : List α} {j : Nat} (d : α) (h : j < l.length) :
    (l ++ l2).getD j d = l.getD j d := by
  simp [List.getD_eq_getElem?_getD, List.getElem?_append_left h]

theorem getD_append_self {l : List α} {t : α} (d : α) :
    (l ++ [t]).getD l.length d = t := by
  simp [List.getD_eq_getElem?_getD, List.getElem?_append_right (le_refl l.length)]

theorem heapGrows_refl (h : List Table) : heapGrows h h :=
  ⟨le_refl _, fun _ _ => rfl⟩

theorem heapGrows_append {h h' : List Table} (G : heapGrows h h') (l : List Table) :
    heapGrows h (h' ++ l) :=
  ⟨le_trans G.1 (by simp), fun j hj => by
    rw [getD_append_left _ (lt_of_lt_of_le hj G.1), G.2 j hj]⟩

theorem heapGrows_set {h h' : List Table} {d : Nat} (hd : h.length ≤ d)
    (G : heapGrows h h') (x : Table) : heapGrows h (h'.set d x) :=
  ⟨by simpa using G.1, fun j hj => by
    rw [getD_set_ne (by omega), G.2 j hj]⟩

theorem heapGrows_fold {h : List Table} {d : Nat} {g : List Table → String → Table}
    {names : List String} {h' : List Table} (hd : h.length ≤ d)
    (G : heapGrows h h') :
    heapGrows h (names.foldl (fun a nm => a.set d (g a nm)) h') := by
  induction names generalizing h' with
  | nil => exact G
  | cons nm ns ih =>
    rw [List.foldl_cons]
    exact ih (heapGrows_set hd G _)

theorem foldl_set_length (d : Nat) (g : List Table → String → Table)
    (names : List String) : ∀ hh : List Table,
      (names.foldl (fun a nm => a.set d (g a nm)) hh).length = hh.length := by
  induction names with
  | nil => intro hh; rfl
  | cons nm ns ih =>
    intro hh
    rw [List.foldl_cons, ih, List.length_set]

/-- The heap-passing reshape never writes a pre-existing address and only
returns fresh addresses. -/
theorem process_st_spec (h : List Table) (i : Nat) (c : String) (j : Nat)
    (hj : j < h.length) :
    (process_countries_data_st h i c).1.getD j emptyTable = h.getD j emptyTable ∧
    (∀ k, (process_countries_data_st h i c).2 = .ok k → h.length ≤ k) := by
  rw [process_countries_data_st]
  rcases hfe : filterEq (hread h i) "Area" (.str c) with e | cdf
  · simp only [hfe]
    exact ⟨trivial, fun k hk => Except.noConfusion hk⟩
  simp only [hfe, halloc, hread, getD_append_self]
  rcases hpr : projectCols cdf ["Year", "Element", "Value"] with e | p
  · simp only [hpr]
    exact ⟨getD_append_left _ hj, fun k hk => Except.noConfusion hk⟩
  simp only [hpr, getD_append_self]
  rcases hpv : pivotWide p with e | w
  · simp only [hpv, List.append_assoc]
    exact ⟨getD_append_left _ hj, fun k hk => Except.noConfusion hk⟩
  simp only [hpv, List.append_assoc]
  refine ⟨getD_append_left _ hj, fun k hk => ?_⟩
  injection hk with hk2
  subst hk2
  simp [List.length_append]

/-- The heap-passing cleaner writes only its private copy (and only above
the pre-existing heap) and returns a fresh address. -/
theorem clean_st_spec (h : List Table) (i : Nat) (j : Nat) (hj : j < h.length) :
    (clean_and_sort_st h i).1.getD j emptyTable = h.getD j emptyTable ∧
    (∀ k, (clean_and_sort_st h i).2 = .ok k → h.length ≤ k) := by
  rw [clean_and_sort_st]
  simp only [halloc, hread, hwrite, getD_append_self]
  rcases hY : (h.getD i emptyTable).cols.findIdx? (· == "Year") with _ | jY
  · simp only [hY]
    exact ⟨(heapGrows_append (heapGrows_refl h) _).2 j hj,
      fun k hk => Except.noConfusion hk⟩
  simp only [hY]
  have hG : heapGrows h (h ++ [h.getD i emptyTable]) :=
    heapGrows_append (heapGrows_refl h) _
  constructor
  · refine (heapGrows_append (heapGrows_fold ?_ (heapGrows_set ?_
      (heapGrows_append (heapGrows_set ?_ hG _) _) _)) _).2 j hj
    · simp
    · simp
    · exact le_refl _
  · intro k hk
    injection hk with hk2
    subst hk2
    simp only [foldl_set_length, List.length_set, List.length_append]
    omega

/-- C9: neither heap-passing transform mutates any pre-existing table —
every address below the initial heap size still holds its old table — and
each returns the address of a newly allocated table (at or above the old
heap size). -/
theorem claim_C9 (h : List Table) (i : Nat) (c : String) (j : Nat)
    (hj : j < h.length) :
    ((process_countries_data_st h i c).1.getD j emptyTable = h.getD j emptyTable ∧
     ∀ k, (process_countries_data_st h i c).2 = .ok k → h.length ≤ k) ∧
    ((clean_and_sort_st h i).1.getD j emptyTable = h.getD j emptyTable ∧
     ∀ k, (clean_and_sort_st h i).2 = .ok k → h.length ≤ k) :=
  ⟨process_st_spec h i c j hj, clean_st_spec h i j hj⟩

/-- C9 witness: on a one-table heap, both transforms leave the input
table at address 0 untouched. -/
theorem claim_C9_witness :
    (((process_countries_data_st [ghanaRawC8] 0 "Ghana").1.getD 0 emptyTable =
        [ghanaRawC8].getD 0 emptyTable ∧
      ∀ k, (process_countries_data_st [ghanaRawC8] 0 "Ghana").2 = .ok k →
        [ghanaRawC8].length ≤ k) ∧
     ((clean_and_sort_st [ghanaRawC8] 0).1.getD 0 emptyTable =
        [ghanaRawC8].getD 0 emptyTable ∧
      ∀ k, (clean_and_sort_st [ghanaRawC8] 0).2 = .ok k →
        [ghanaRawC8].length ≤ k)) :=
  claim_C9 [ghanaRawC8] 0 "Ghana" 0 (by decide)

/-- C5 witness: on a table with one unparsable Year and one unparsable
Yield, the cleaner drops exactly the bad-Year row, keeps the other with
its Yield cell cleared, and its Year an integer. -/
theorem claim_C5_witness :
    clean_and_sort cleanerWitnessIn = .ok cleanerWitnessOut ∧
    (cleanerWitnessOut.rows.Perm
      ((cleanerWitnessIn.rows.filter (yearParses 0)).map
        (cleanRowF cleanerWitnessIn.cols 0)) ∧
     cleanerWitnessOut.rows.length =
      (cleanerWitnessIn.rows.filter (yearParses 0)).length ∧
     ∀ r' ∈ cleanerWitnessOut.rows, ∃ k : ℤ, r'.getD 0 .na = .num (k : ℚ)) :=
  ⟨rfl, claim_C5 cleanerWitnessIn cleanerWitnessOut 0 rfl rfl⟩

/-- C1 witness: on a pair of tables with all metric values missing, the
combined chart still completes and renders all four (empty) panels. -/
theorem claim_C1_witness :
    ∃ fig, plot_combined
        { cols := ["Year", "Area harvested", "Yield"], rows := [[.num 1961, .na, .na]] }
        { cols := ["Year", "Area harvested", "Yield"], rows := [] }
        "output" "combined_plots.pdf" = .ok fig ∧ fig.panels.length = 4 :=
  claim_C1
    { cols := ["Year", "Area harvested", "Yield"], rows := [[.num 1961, .na, .na]] }
    { cols := ["Year", "Area harvested", "Yield"], rows := [] }
    "output" "combined_plots.pdf"
    (by decide) (by decide) (by decide) (by decide) (by decide) (by decide)

/-- C8: the two-row Ghana 1961 input (Yield 300, Area harvested 100),
reshaped for "Ghana" and cleaned, yields exactly one row with Year 1961,
Area harvested 100, Yield 300, and no Production column. -/
theorem claim_C8 :
    process_countries_data ghanaRawC8 "Ghana" = .ok entityC8 ∧
    clean_and_sort entityC8 = .ok cleanedC8 ∧
    cleanedC8.cols = ["Year", "Area harvested", "Yield"] ∧
    cleanedC8.rows = [[.num 1961, .num 100, .num 300]] ∧
    "Production" ∉ cleanedC8.cols :=
  ⟨rfl, rfl, rfl, rfl, by decide⟩

/-- C3 counterexample: the loader does coerce: the field "1961" is loaded
as the number 1961, not retained as the text read from the file. -/
theorem claim_C3_cex :
    load_data { header := ["Year"], cells := [["1961"]] } =
      { cols := ["Year"], rows := [[.num 1961]] } ∧
    ¬ loadRetainsValuesVerbatim { header := ["Year"], cells := [["1961"]] } :=
  ⟨rfl, by unfold loadRetainsValuesVerbatim; decide⟩

/-- C3 (amended): the loader preserves all source columns and the row
count, but values undergo default type inference (missing-value markers
become missing, fully numeric columns are converted to numbers) rather
than being retained verbatim as text. -/
theorem claim_C3 (f : Csv) :
    (load_data f).cols = f.header ∧
    (load_data f).rows.length = f.cells.length :=
  ⟨rfl, by simp [load_data]⟩

/-- C7: a table whose Yield column is absent, or present but entirely
missing, makes plot_scatter return a skip notice without error and write
zero files; likewise plot_bar with Area harvested. -/
theorem claim_C7 (t u : Table) (cn o fn cn2 o2 fn2 : String)
    (hs : "Yield" ∉ t.cols ∨ allNACol t "Yield" = true)
    (hb : "Area harvested" ∉ u.cols ∨ allNACol u "Area harvested" = true) :
    (∃ m, plot_scatter t cn o fn = .ok (.skipped m) ∧
      filesCreated (.skipped m) = 0) ∧
    (∃ m, plot_bar u cn2 o2 fn2 = .ok (.skipped m) ∧
      filesCreated (.skipped m) = 0) := by
  constructor
  · by_cases hc : "Yield" ∈ t.cols
    · have hna : allNACol t "Yield" = true := by
        rcases hs with hs | hs
        · exact absurd hc hs
        · exact hs
      obtain ⟨j, hj⟩ := mem_findIdx?_beq hc
      rw [allNACol, hj, List.all_eq_true] at hna
      have hempty : t.rows.filter (fun r => !(r.getD j .na == .na)) = [] := by
        rw [List.filter_eq_nil_iff]
        intro r hr
        have h2 := hna r hr
        simp only [h2]
        simp
      refine ⟨"Warning: No valid Yield values for " ++ cn ++
        ". Skipping scatter plot.", ?_, rfl⟩
      rw [plot_scatter, if_pos (List.elem_iff.mpr hc), dropnaSubset, hj]
      simp only [dropnaAt]
      rw [hempty]
      rfl
    · refine ⟨"Warning: Yield column not found for " ++ cn ++
        ". Skipping scatter plot.", ?_, rfl⟩
      rw [plot_scatter, if_neg]
      simpa using hc
  · by_cases hc : "Area harvested" ∈ u.cols
    · have hna : allNACol u "Area harvested" = true := by
        rcases hb with hb | hb
        · exact absurd hc hb
        · exact hb
      obtain ⟨j, hj⟩ := mem_findIdx?_beq hc
      rw [allNACol, hj, List.all_eq_true] at hna
      have hempty : u.rows.filter (fun r => !(r.getD j .na == .na)) = [] := by
        rw [List.filter_eq_nil_iff]
        intro r hr
        have h2 := hna r hr
        simp only [h2]
        simp
      refine ⟨"Warning: No valid Area harvested values for " ++ cn2 ++
        ". Skipping bar chart.", ?_, rfl⟩
      rw [plot_bar, if_pos (List.elem_iff.mpr hc), dropnaSubset, hj]
      simp only [dropnaAt]
      rw [hempty]
      rfl
    · refine ⟨"Warning: Area harvested column not found for " ++ cn2 ++
        ". Skipping bar chart.", ?_, rfl⟩
      rw [plot_bar, if_neg]
      simpa using hc

/-- C7 witness: a Yield column that is present but entirely missing skips
the scatter chart, and an absent Area harvested column skips the bar
chart, each with zero files written. -/
theorem claim_C7_witness :
    (∃ m, plot_scatter { cols := ["Year", "Yield"], rows := [[.num 1961, .na]] }
        "Ghana" "output" "s.png" = .ok (.skipped m) ∧
      filesCreated (.skipped m) = 0) ∧
    (∃ m, plot_bar yearOnlyEmpty "Ghana" "output" "b.png" = .ok (.skipped m) ∧
      filesCreated (.skipped m) = 0) :=
  claim_C7 { cols := ["Year", "Yield"], rows := [[.num 1961, .na]] }
    yearOnlyEmpty "Ghana" "output" "s.png" "Ghana" "output" "b.png"
    (Or.inr (by decide)) (Or.inl (by decide))

theorem getD_map {l : List α} {f : α → β} {j : Nat} (d : β) (d' : α)
    (h : j < l.length) : (l.map f).getD j d = f (l.getD j d') := by
  rw [List.getD_eq_getElem?_getD, List.getElem?_map, List.getElem?_eq_getElem h,
    List.getD_eq_getElem?_getD, List.getElem?_eq_getElem h]
  rfl

theorem pKeptYears_pYears {ts : List (Cell × Cell × Cell)} {y : Cell}
    (hy : y ∈ pKeptYears ts) : y ∈ pYears ts := by
  rw [pKeptYears] at hy
  by_cases he : (pElems ts).isEmpty
  · rwa [if_pos he] at hy
  · rw [if_neg he] at hy
    exact List.mem_of_mem_filter hy

theorem dfTriples_validKey {df : Table} {jA : Nat} {c : String} {jY jE jV : Nat}
    {p : Cell × Cell × Cell} (hp : p ∈ dfTriples df jA c jY jE jV) :
    validKey p = true := by
  rw [dfTriples] at hp
  exact List.of_mem_filter hp

theorem pKeptYears_ne_na {df : Table} {jA : Nat} {c : String} {jY jE jV : Nat}
    {y : Cell} (hy : y ∈ pKeptYears (dfTriples df jA c jY jE jV)) : y ≠ .na := by
  have h1 : y ∈ pYears (dfTriples df jA c jY jE jV) := pKeptYears_pYears hy
  rw [pYears] at h1
  have h2 := (sortBy_perm cellLe _).mem_iff.mp h1
  have h3 := List.mem_dedup.mp h2
  obtain ⟨p, hp, hpy⟩ := List.mem_map.mp h3
  have hv := dfTriples_validKey hp
  rw [validKey, Bool.and_eq_true] at hv
  intro hna
  rw [hna] at hpy
  rw [hpy] at hv
  simp at hv

theorem groupVals_matching {df : Table} {c : String} {jA jY jE jV : Nat}
    (hjA : df.cols.findIdx? (· == "Area") = some jA)
    (hjY : df.cols.findIdx? (· == "Year") = some jY)
    (hjE : df.cols.findIdx? (· == "Element") = some jE)
    (hjV : df.cols.findIdx? (· == "Value") = some jV)
    {y : Cell} (hyNa : y ≠ .na) (e : String) :
    groupVals (dfTriples df jA c jY jE jV) y (.str e) = matchingValues df c y e := by
  simp only [matchingValues, hjA, hjY, hjE, hjV]
  rw [groupVals, dfTriples, List.filter_filter, List.filter_map, List.map_map,
    List.filter_filter]
  have hfil : ∀ r ∈ df.rows,
      (((fun p : Cell × Cell × Cell => p.1 == y && p.2.1 == Cell.str e) ∘
        (fun r : List Cell => (r.getD jY .na, r.getD jE .na, r.getD jV .na))) r &&
        validKey ((fun r : List Cell =>
          (r.getD jY .na, r.getD jE .na, r.getD jV .na)) r) &&
        (r.getD jA .na == Cell.str c)) =
      (r.getD jA .na == Cell.str c && r.getD jY .na == y &&
        r.getD jE .na == Cell.str e) := by
    intro r _
    simp only [Function.comp_apply, validKey]
    cases hB : (r.getD jY .na == y) with
    | false => simp [hB]
    | true =>
      have hyv : r.getD jY .na = y := eq_of_beq hB
      have h1 : (r.getD jY .na == Cell.na) = false := by
        rw [hyv]
        exact beq_eq_false_iff_ne.mpr hyNa
      cases hC : (r.getD jE .na == Cell.str e) with
      | false => simp [hB, hC]
      | true =>
        have hyv2 : r.getD jY .na = y := eq_of_beq hB
        have hev : r.getD jE .na = Cell.str e := eq_of_beq hC
        have hyb : (y == Cell.na) = false := beq_eq_false_iff_ne.mpr hyNa
        have hsb : (Cell.str e == Cell.na) = false := rfl
        rw [hyv2, hev]
        simp [hyb, hsb]
  exact congrArg (List.map _) (List.filter_congr hfil)



theorem selectCanon_rows (w' : WTable) :
    (selectCanon w').rows =
      w'.rows.map (fun r => (canonExisting w').map (wideLook w' r)) := rfl

theorem pivotCore_rows (ts : List (Cell × Cell × Cell)) :
    (pivotCore ts).rows = (pKeptYears ts).map (fun y =>
      y :: (pKeptElems ts).map (fun e => firstNonNA (groupVals ts y e))) := rfl

theorem findIdx?_cons_of_neg {p : α → Bool} {a : α} {l : List α} (h : p a = false) :
    (a :: l).findIdx? p = (l.findIdx? p).map (· + 1) := by
  simp [List.findIdx?_cons, h, List.findIdx?_start_succ]

/-- C4 (amended): when rows collide on (Area, Year, Element), the
reshaped cell for that key holds the first non-missing Value among the
matching rows in input order (the aggregation skips missing values;
remaining values are silently discarded with no aggregation and no
warning). Stated for every raw table, entity, surviving row and present
metric column of a successful reshape. -/
theorem claim_C4 (df : Table) (c : String) (w : Table) (y : Cell) (e : String)
    (j : Nat) (r : List Cell)
    (h : process_countries_data df c = .ok w)
    (he : e ∈ metricNames)
    (hj : w.cols.findIdx? (· == e) = some j)
    (hr : r ∈ w.rows) (hy : r.getD 0 .na = y) :
    r.getD j .na = firstNonNA (matchingValues df c y e) := by
  obtain ⟨jA, jY, jE, jV, hjA, hjY, hjE, hjV, hw⟩ := process_ok_inv h
  subst hw
  rw [selectCanon_rows, pivotCore_rows, List.map_map] at hr
  obtain ⟨y', hy', hre⟩ := List.mem_map.mp hr
  have hexist := canonExisting_pivotCore (dfTriples df jA c jY jE jV)
  have hwc : (pivotCore (dfTriples df jA c jY jE jV)).wcols =
      Cell.str "Year" :: pKeptElems (dfTriples df jA c jY jE jV) := rfl
  have hy0 : r.getD 0 .na = y' := by
    rw [← hre]
    simp only [Function.comp_apply]
    rw [hexist]
    simp [wideLook, hwc, List.findIdx?_cons]
  have hyy : y' = y := by rw [hy0] at hy; exact hy
  subst hyy
  have hne : e ≠ "Year" := by
    have hall : ∀ x ∈ metricNames, x ≠ "Year" := by decide
    exact hall e he
  have hcols : (selectCanon (pivotCore (dfTriples df jA c jY jE jV))).cols =
      "Year" :: (["Area harvested", "Yield", "Production"].filter
        (fun x => (pKeptElems (dfTriples df jA c jY jE jV)).contains (.str x))) :=
    canonExisting_pivotCore _
  rw [hcols] at hj
  have hhead : (("Year" : String) == e) = false := beq_eq_false_iff_ne.mpr (Ne.symm hne)
  rw [@findIdx?_cons_of_neg String (fun x => x == e) "Year" _ hhead] at hj
  obtain ⟨j', hj', hjj⟩ := Option.map_eq_some'.mp hj
  subst hjj
  obtain ⟨hjlt, hjeq⟩ := findIdx?_beq_spec hj' ""
  have hhead2 : (Cell.str "Year" == Cell.str e) = false := by
    refine beq_eq_false_iff_ne.mpr ?_
    intro hcontra
    exact hne (Cell.str.inj hcontra).symm
  have hkept : Cell.str e ∈ pKeptElems (dfTriples df jA c jY jE jV) := by
    have hmem := findIdx?_beq_mem hj'
    exact List.elem_iff.mp (List.mem_filter.mp hmem).2
  obtain ⟨k, hk⟩ := mem_findIdx?_beq hkept
  obtain ⟨hklt, hkeq⟩ := findIdx?_beq_spec hk Cell.na
  have hrget : r.getD (j' + 1) .na =
      firstNonNA (groupVals (dfTriples df jA c jY jE jV) y' (.str e)) := by
    rw [← hre]
    simp only [Function.comp_apply]
    rw [hexist, List.map_cons, List.getD_cons_succ, getD_map Cell.na "" hjlt, hjeq]
    rw [wideLook, hwc, @findIdx?_cons_of_neg Cell (fun x => x == Cell.str e) (Cell.str "Year") _ hhead2, hk]
    simp only [Option.map_some']
    rw [List.getD_cons_succ, getD_map Cell.na Cell.na hklt, hkeq]
  rw [hrget]
  have hyna : y' ≠ Cell.na := pKeptYears_ne_na hy'
  rw [groupVals_matching hjA hjY hjE hjV hyna e]

/-- C4 counterexample: with two colliding (Ghana, 1961, Yield) rows whose
first Value is missing and second is 300, the reshaped cell holds 300 —
not the value of the first row encountered (which is missing) — because
the aggregation skips missing values. -/
theorem claim_C4_cex :
    process_countries_data ghanaRawC4 "Ghana" =
      .ok { cols := ["Year", "Yield"], rows := [[.str "1961", .num 300]] } ∧
    (ghanaRawC4.rows.getD 0 []).getD 3 .na = .na ∧
    Cell.num 300 ≠ Cell.na :=
  ⟨rfl, rfl, by decide⟩

/-- C4 witness: in the two-row collision input the reshaped Yield cell of
the 1961 row equals the first non-missing matching Value. -/
theorem claim_C4_witness :
    ([Cell.str "1961", Cell.num 300] : List Cell).getD 1 .na =
      firstNonNA (matchingValues ghanaRawC4 "Ghana" (.str "1961") "Yield") :=
  claim_C4 ghanaRawC4 "Ghana"
    { cols := ["Year", "Yield"], rows := [[.str "1961", .num 300]] }
    (.str "1961") "Yield" 1 [.str "1961", .num 300]
    rfl (by decide) rfl (by decide) rfl

end Cocoa
